import Mathlib

/-!
# Verification of the IPA palette plugin core (src/main.ts)

A shallow embedding of the plugin's core logic:

* the persisted configuration (`MyPluginSettings`, `DEFAULT_SETTINGS`,
  `loadSettings`) — visibility flags for the four symbol categories and the
  category display order;
* the settings-tab mutations: the visibility toggles (`setVisibility`) and
  the drag-and-drop reorder handler (`dropHandler`, which splices the
  dragged category out of `categoryOrder` and reinserts it at the drop
  index);
* the palette render (`onOpenSections`), which walks `categoryOrder` and
  emits a section for each visible known category;
* the insertion-target tracker (`ViewTracker`, `onActiveLeafChange`,
  `insertCharacterAtCursor`), which remembers the last markdown view that
  was focused and inserts a symbol at that editor's cursor.

TypeScript arrays become Lean `List`s, `null`/absent becomes `Option`, and
the host editor object becomes an explicit `Editor` state record.
-/

namespace IPAPalette

/-- `interface MyPluginSettings` from src/main.ts: four visibility flags and
the category order array. -/
structure MyPluginSettings where
  showVowels : Bool
  showConsonants : Bool
  showDiacritics : Bool
  showSuprasegmentals : Bool
  categoryOrder : List String
deriving DecidableEq, Repr

/-- `DEFAULT_SETTINGS` from src/main.ts. -/
def DEFAULT_SETTINGS : MyPluginSettings :=
  { showVowels := true
    showConsonants := true
    showDiacritics := true
    showSuprasegmentals := true
    categoryOrder := ["Vowels", "Consonants", "Diacritics", "Suprasegmentals"] }

/-- Raw persisted data as returned by the host's `loadData()`: a JSON object
in which each settings field may be present or absent. -/
structure PersistedData where
  showVowels : Option Bool
  showConsonants : Option Bool
  showDiacritics : Option Bool
  showSuprasegmentals : Option Bool
  categoryOrder : Option (List String)
deriving DecidableEq, Repr

/-- `MyPlugin.loadSettings`:
`this.settings = Object.assign({}, DEFAULT_SETTINGS, await this.loadData())`.
`Object.assign` copies, field by field, each field present in the loaded data
over the corresponding default; `loadData()` may resolve to nothing at all
(first run), in which case the defaults remain untouched. -/
def loadSettings (raw : Option PersistedData) : MyPluginSettings :=
  match raw with
  | none => DEFAULT_SETTINGS
  | some p =>
    { showVowels := match p.showVowels with
        | some v => v
        | none => DEFAULT_SETTINGS.showVowels
      showConsonants := match p.showConsonants with
        | some v => v
        | none => DEFAULT_SETTINGS.showConsonants
      showDiacritics := match p.showDiacritics with
        | some v => v
        | none => DEFAULT_SETTINGS.showDiacritics
      showSuprasegmentals := match p.showSuprasegmentals with
        | some v => v
        | none => DEFAULT_SETTINGS.showSuprasegmentals
      categoryOrder := match p.categoryOrder with
        | some v => v
        | none => DEFAULT_SETTINGS.categoryOrder }

/-- The array splice performed by the drop handler in `IPASettingTab.display`:
`const [moved] = newOrder.splice(fromIndex, 1); newOrder.splice(toIndex, 0, moved)`.
`fromIndex` is always an index of an item of the rendered order list, so the
lookup succeeds; the out-of-range fallback below is never exercised. -/
def spliceMove (order : List String) (fromIndex toIndex : Nat) : List String :=
  match order[fromIndex]? with
  | some moved => (order.eraseIdx fromIndex).insertIdx toIndex moved
  | none => order

/-- The drop handler in `IPASettingTab.display` (src/main.ts lines 363-384):
when `fromIndex !== toIndex` it replaces `categoryOrder` with the spliced
array, saves the settings and refreshes the view; otherwise it does nothing.
The two booleans record whether `saveSettings` and `refreshView` ran. -/
def dropHandler (s : MyPluginSettings) (fromIndex toIndex : Nat) :
    MyPluginSettings × Bool × Bool :=
  if fromIndex ≠ toIndex then
    ({ s with categoryOrder := spliceMove s.categoryOrder fromIndex toIndex }, true, true)
  else
    (s, false, false)

/-- `IPAPaletteView.ipaVowels`. -/
def ipaVowels : List String :=
  ["i", "y", "ɨ", "ʉ", "ɯ", "u",
   "ɪ", "ʏ", "ʊ",
   "e", "ø", "ɘ", "ɵ", "ɤ", "o",
   "ə",
   "ɛ", "œ", "ɜ", "ɞ", "ʌ", "ɔ",
   "æ", "ɐ",
   "a", "ɶ", "ɑ", "ɒ"]

/-- `IPAPaletteView.ipaConsonants`. -/
def ipaConsonants : List String :=
  ["p", "b", "t", "d", "ʈ", "ɖ", "c", "ɟ", "k", "g", "q", "ɢ", "ʔ",
   "m", "ɱ", "n", "ɳ", "ɲ", "ŋ", "ɴ",
   "ʙ", "r", "ʀ",
   "ɾ", "ɽ",
   "ɸ", "β", "f", "v", "θ", "ð", "s", "z", "ʃ", "ʒ", "ʂ", "ʐ", "ç", "ʝ",
   "x", "ɣ", "χ", "ʁ", "ħ", "ʕ", "h", "ɦ",
   "ɬ", "ɮ", "ʋ", "ɹ", "ɻ", "j", "ɰ", "l", "ɭ", "ʎ", "ʟ"]

/-- `IPAPaletteView.diacritics`. -/
def diacritics : List String :=
  ["̥", "̬", "̹", "̜", "̟", "̠", "̈", "̽", "̩", "̯", "˞", "̤", "̰", "̼",
   "̪", "̺", "̻", "̃", "ⁿ", "ˡ", "̚", "̘", "̙", "̝", "̞", "̆", "̋", "́",
   "̄", "̀", "̏", "̌", "̂", "᷄", "᷅", "᷈", "↓", "↑", "↗", "↘"]

/-- `IPAPaletteView.suprasegmentals`. -/
def suprasegmentals : List String :=
  ["ˈ", "ˌ", "ː", "ˑ", "̆", "|", "‖", ".", "‿", "͡"]

/-- The four category names the `switch` in `IPAPaletteView.onOpen`
recognises. -/
def knownCategoryNames : List String :=
  ["Vowels", "Consonants", "Diacritics", "Suprasegmentals"]

/-- One iteration of the `for`/`switch` in `IPAPaletteView.onOpen`
(src/main.ts lines 99-122): for a known category name whose visibility flag
is set, a section (title and character list) is created; a hidden or unknown
category produces nothing. -/
def categorySection (s : MyPluginSettings) (category : String) :
    Option (String × List String) :=
  if category = "Vowels" then
    if s.showVowels then some ("Vowels", ipaVowels) else none
  else if category = "Consonants" then
    if s.showConsonants then some ("Consonants", ipaConsonants) else none
  else if category = "Diacritics" then
    if s.showDiacritics then some ("Diacritics", diacritics) else none
  else if category = "Suprasegmentals" then
    if s.showSuprasegmentals then some ("Suprasegmentals", suprasegmentals) else none
  else none

/-- The sections `IPAPaletteView.onOpen` renders, in order: it walks
`settings.categoryOrder` and emits the section of each entry that produces
one. -/
def onOpenSections (s : MyPluginSettings) : List (String × List String) :=
  s.categoryOrder.filterMap (categorySection s)

/-- The visibility flag `onOpen` consults for a category name; an unknown
name has no flag and is never rendered. -/
def categoryVisible (s : MyPluginSettings) (category : String) : Bool :=
  if category = "Vowels" then s.showVowels
  else if category = "Consonants" then s.showConsonants
  else if category = "Diacritics" then s.showDiacritics
  else if category = "Suprasegmentals" then s.showSuprasegmentals
  else false

/-- The visibility-toggle handlers in `IPASettingTab.display`
(src/main.ts lines 277-319), one per category, parametrised by the category
name: `this.plugin.settings.show<Category> = value` followed by
`saveSettings` and `refreshView` (which do not change the settings). -/
def setVisibility (s : MyPluginSettings) (category : String) (value : Bool) :
    MyPluginSettings :=
  if category = "Vowels" then { s with showVowels := value }
  else if category = "Consonants" then { s with showConsonants := value }
  else if category = "Diacritics" then { s with showDiacritics := value }
  else if category = "Suprasegmentals" then { s with showSuprasegmentals := value }
  else s

/-- A cursor position, `{line, ch}` as used by the editor handle. -/
structure EditorPosition where
  line : Nat
  ch : Nat
deriving DecidableEq, Repr

/-- Modelled from the spec: the host editor handle (an external collaborator,
spec section 6) — a text buffer as a list of lines of characters, a cursor,
and whether the editor has input focus. -/
structure Editor where
  lines : List (List Char)
  cursor : EditorPosition
  focused : Bool
deriving DecidableEq, Repr

/-- Modelled from the spec: `getCursor()` of the editor handle contract. -/
def Editor.getCursor (e : Editor) : EditorPosition :=
  e.cursor

/-- Modelled from the spec: `replaceRange(text, position)` of the editor
handle contract, called with a single position — splices `text` into the
line at `position` without replacing any existing text. -/
def Editor.replaceRange (e : Editor) (text : List Char) (pos : EditorPosition) :
    Editor :=
  let line := e.lines.getD pos.line []
  { e with lines := e.lines.set pos.line (line.take pos.ch ++ text ++ line.drop pos.ch) }

/-- Modelled from the spec: `setCursor(position)` of the editor handle
contract. -/
def Editor.setCursor (e : Editor) (pos : EditorPosition) : Editor :=
  { e with cursor := pos }

/-- Modelled from the spec: `focus()` of the editor handle contract. -/
def Editor.focus (e : Editor) : Editor :=
  { e with focused := true }

/-- A markdown view as seen by the tracker: an identity and its editor. -/
structure MarkdownViewM where
  id : Nat
  editor : Editor
deriving DecidableEq, Repr

/-- The tracking state of `IPAPaletteView`: `lastActiveEditor` and
`lastActiveView`, both initialised to `null`. -/
structure ViewTracker where
  lastActiveEditor : Option Editor
  lastActiveView : Option MarkdownViewM
deriving DecidableEq, Repr

/-- The initial tracker state (`= null` field initialisers in src/main.ts
lines 28-29). -/
def initialTracker : ViewTracker :=
  { lastActiveEditor := none, lastActiveView := none }

/-- The `active-leaf-change` handler registered in the `IPAPaletteView`
constructor (src/main.ts lines 36-44): `getActiveViewOfType(MarkdownView)`
either resolves to a markdown view (`some v`) or not (`none`); only in the
former case are both `lastActiveView` and `lastActiveEditor` overwritten. -/
def onActiveLeafChange (t : ViewTracker) (activeView : Option MarkdownViewM) :
    ViewTracker :=
  match activeView with
  | some v => { lastActiveView := some v, lastActiveEditor := some v.editor }
  | none => t

/-- A sequence of focus-change events processed in order. -/
def runFocusEvents (t : ViewTracker) (evs : List (Option MarkdownViewM)) :
    ViewTracker :=
  evs.foldl onActiveLeafChange t

/-- The most recent event of a sequence that resolved to a markdown view,
if any. -/
def lastEditorEvent : List (Option MarkdownViewM) → Option MarkdownViewM
  | [] => none
  | e :: evs =>
    match lastEditorEvent evs with
    | some v => some v
    | none => e

/-- Outcome of one `insertCharacterAtCursor` call: the final state of the
target editor when one was mutated, and the number of `Notice`s shown. -/
structure InsertResult where
  editor : Option Editor
  notices : Nat
deriving DecidableEq, Repr

/-- `IPAPaletteView.insertCharacterAtCursor` (src/main.ts lines 143-161):
if both stored references are set, read the cursor, splice the character in
at the cursor, move the cursor forward by the character's length, and give
focus back to the editor; otherwise show one `Notice` and touch nothing. -/
def insertCharacterAtCursor (t : ViewTracker) (char : List Char) : InsertResult :=
  match t.lastActiveEditor, t.lastActiveView with
  | some editor, some _ =>
    let cursor := editor.getCursor
    let e1 := editor.replaceRange char cursor
    let e2 := e1.setCursor { line := cursor.line, ch := cursor.ch + char.length }
    { editor := some e2.focus, notices := 0 }
  | _, _ => { editor := none, notices := 1 }

/-- Any list is, up to permutation, its `i`-th element consed onto the list
with that position erased. -/
theorem perm_getElem_cons_eraseIdx :
    ∀ (l : List String) (i : Nat) (h : i < l.length), l.Perm (l[i] :: l.eraseIdx i)
  | _ :: _, 0, _ => List.Perm.refl _
  | a :: l, i + 1, h => by
    have h' : i < l.length := Nat.lt_of_succ_lt_succ h
    have hp := (perm_getElem_cons_eraseIdx l i h').cons a
    simpa using hp.trans (List.Perm.swap _ _ _)

/-- C1: from any configuration, a drop of the item at `fromIndex` onto the
item at `toIndex` yields an order that is a permutation of the previous one,
the moved category ends up at `toIndex`, the other categories keep their
relative order (erasing the moved item from the result gives the same list
as erasing it from the original), and the concrete example holds: from the
default order, moving `Diacritics` (index 2) to index 0 gives
`[Diacritics, Vowels, Consonants, Suprasegmentals]`. -/
theorem reorder_is_stable_move (s : MyPluginSettings) (i j : Nat)
    (hi : i < s.categoryOrder.length) (hj : j < s.categoryOrder.length) :
    ((dropHandler s i j).1.categoryOrder).Perm s.categoryOrder ∧
    ((dropHandler s i j).1.categoryOrder)[j]? = s.categoryOrder[i]? ∧
    ((dropHandler s i j).1.categoryOrder).eraseIdx j = s.categoryOrder.eraseIdx i ∧
    (dropHandler DEFAULT_SETTINGS 2 0).1.categoryOrder
      = ["Diacritics", "Vowels", "Consonants", "Suprasegmentals"] := by
  by_cases hij : i = j
  · subst hij
    have hd : dropHandler s i i = (s, false, false) := by simp [dropHandler]
    rw [hd]
    exact ⟨List.Perm.refl _, rfl, rfl, by decide⟩
  · set l := s.categoryOrder with hl
    have hres : (dropHandler s i j).1.categoryOrder = (l.eraseIdx i).insertIdx j l[i] := by
      simp [dropHandler, hij, spliceMove, List.getElem?_eq_getElem hi]
    have hlen : (l.eraseIdx i).length + 1 = l.length := List.length_eraseIdx_add_one hi
    have hj' : j ≤ (l.eraseIdx i).length := by omega
    have hlen' : ((l.eraseIdx i).insertIdx j l[i]).length = (l.eraseIdx i).length + 1 :=
      List.length_insertIdx j _ hj'
    refine ⟨?_, ?_, ?_, by decide⟩
    · rw [hres]
      exact (List.perm_insertIdx l[i] _ hj').trans (perm_getElem_cons_eraseIdx l i hi).symm
    · rw [hres, List.getElem?_eq_getElem (by omega), List.getElem?_eq_getElem hi]
      exact congrArg some (List.getElem_insertIdx_self _ _ _ hj')
    · rw [hres, List.eraseIdx_insertIdx]

/-- Witness for C1 at the spec's end-to-end example: the default order with
`Diacritics` dropped onto index 0. -/
theorem reorder_is_stable_move_witness :
    ((dropHandler DEFAULT_SETTINGS 2 0).1.categoryOrder).Perm
        DEFAULT_SETTINGS.categoryOrder ∧
    ((dropHandler DEFAULT_SETTINGS 2 0).1.categoryOrder)[0]?
      = DEFAULT_SETTINGS.categoryOrder[2]? ∧
    ((dropHandler DEFAULT_SETTINGS 2 0).1.categoryOrder).eraseIdx 0
      = DEFAULT_SETTINGS.categoryOrder.eraseIdx 2 ∧
    (dropHandler DEFAULT_SETTINGS 2 0).1.categoryOrder
      = ["Diacritics", "Vowels", "Consonants", "Suprasegmentals"] :=
  reorder_is_stable_move DEFAULT_SETTINGS 2 0 (by decide) (by decide)

/-- Counterexample to C6 as stated: dropping an item onto itself
(`fromIndex = toIndex = 0`) leaves the order unchanged but performs neither
a save nor a re-render — the claim says the configuration is still persisted
and a re-render still requested. -/
theorem drop_same_index_cex :
    dropHandler DEFAULT_SETTINGS 0 0 = (DEFAULT_SETTINGS, false, false) :=
  rfl

/-- C6 (amended): when the drop index equals the dragged item's index, the
handler does nothing at all — the order is unchanged and neither
`saveSettings` nor `refreshView` is invoked (the whole body is guarded by
`fromIndex !== toIndex`). -/
theorem drop_same_index_noop (s : MyPluginSettings) (i : Nat) :
    dropHandler s i i = (s, false, false) := by
  simp [dropHandler]

/-- C5: `loadSettings` merges persisted data over the defaults field by
field — each absent field takes its default and each present field
overrides it (`Option.getD`), absent data altogether yields the defaults,
and in particular persisted data `{showVowels: false}` with all other
fields absent yields `showVowels = false`, the other three flags `true`,
and the default category order. -/
theorem loadSettings_shallow_merge (p : PersistedData) :
    (loadSettings (some p)).showVowels
        = p.showVowels.getD DEFAULT_SETTINGS.showVowels ∧
    (loadSettings (some p)).showConsonants
        = p.showConsonants.getD DEFAULT_SETTINGS.showConsonants ∧
    (loadSettings (some p)).showDiacritics
        = p.showDiacritics.getD DEFAULT_SETTINGS.showDiacritics ∧
    (loadSettings (some p)).showSuprasegmentals
        = p.showSuprasegmentals.getD DEFAULT_SETTINGS.showSuprasegmentals ∧
    (loadSettings (some p)).categoryOrder
        = p.categoryOrder.getD DEFAULT_SETTINGS.categoryOrder ∧
    loadSettings none = DEFAULT_SETTINGS ∧
    loadSettings (some ⟨some false, none, none, none, none⟩)
      = { DEFAULT_SETTINGS with showVowels := false } := by
  obtain ⟨v, c, d, u, o⟩ := p
  refine ⟨?_, ?_, ?_, ?_, ?_, rfl, rfl⟩ <;>
    first
      | (cases v <;> rfl)
      | (cases c <;> rfl)
      | (cases d <;> rfl)
      | (cases u <;> rfl)
      | (cases o <;> rfl)

/-- Running a sequence of focus-change events resolves to the most recent
event that reported a markdown view, or leaves the state untouched when no
event did. -/
theorem runFocusEvents_eq (t : ViewTracker) (evs : List (Option MarkdownViewM)) :
    runFocusEvents t evs
      = match lastEditorEvent evs with
        | some v => { lastActiveEditor := some v.editor, lastActiveView := some v }
        | none => t := by
  induction evs generalizing t with
  | nil => rfl
  | cons e evs ih =>
    have hstep : runFocusEvents t (e :: evs)
        = runFocusEvents (onActiveLeafChange t e) evs := rfl
    rw [hstep, ih]
    cases hle : lastEditorEvent evs with
    | some v => simp [lastEditorEvent, hle]
    | none =>
      cases e with
      | some v => simp [lastEditorEvent, hle, onActiveLeafChange]
      | none => simp [lastEditorEvent, hle, onActiveLeafChange]

/-- A sequence of focus events none of which resolved to a markdown view
leaves the tracker untouched. -/
theorem runFocusEvents_all_none (t : ViewTracker) :
    ∀ (evs : List (Option MarkdownViewM)), (∀ e ∈ evs, e = none) →
      runFocusEvents t evs = t
  | [], _ => rfl
  | e :: evs, h => by
    have he : e = none := h e (List.mem_cons_self e evs)
    subst he
    exact runFocusEvents_all_none t evs fun x hx => h x (List.mem_cons_of_mem _ hx)

/-- C2: with a stored insertion target whose cursor is at `(L, C)`,
`insertCharacterAtCursor` shows no notice and yields an editor state in
which the cursor is at `(L, C + char.length)`, line `L` is the old line
with `char` spliced in at offset `C`, every other line is unchanged, the
first `C` characters of line `L` are unchanged, and the characters after
the insertion are exactly the old characters from offset `C` on. -/
theorem insert_splices_at_cursor (t : ViewTracker) (ed : Editor) (v : MarkdownViewM)
    (char : List Char) (L C : Nat)
    (ht : t.lastActiveEditor = some ed) (hv : t.lastActiveView = some v)
    (hcur : ed.cursor = ⟨L, C⟩) (hL : L < ed.lines.length)
    (hC : C ≤ (ed.lines.getD L []).length) :
    ∃ e' : Editor,
      insertCharacterAtCursor t char = { editor := some e', notices := 0 } ∧
      e'.cursor = ⟨L, C + char.length⟩ ∧
      e'.lines[L]?
        = some ((ed.lines.getD L []).take C ++ char ++ (ed.lines.getD L []).drop C) ∧
      (∀ k, k ≠ L → e'.lines[k]? = ed.lines[k]?) ∧
      (e'.lines.getD L []).take C = (ed.lines.getD L []).take C ∧
      (e'.lines.getD L []).drop (C + char.length) = (ed.lines.getD L []).drop C := by
  have hX : (ed.replaceRange char ⟨L, C⟩).lines
      = ed.lines.set L
          ((ed.lines.getD L []).take C ++ char ++ (ed.lines.getD L []).drop C) := rfl
  have hlen1 : ((ed.lines.getD L []).take C).length = C := by
    rw [List.length_take]; exact Nat.min_eq_left hC
  refine ⟨((ed.replaceRange char ⟨L, C⟩).setCursor ⟨L, C + char.length⟩).focus,
    ?_, rfl, ?_, ?_, ?_, ?_⟩
  · simp [insertCharacterAtCursor, ht, hv, Editor.getCursor, hcur]
  · show (ed.replaceRange char ⟨L, C⟩).lines[L]? = _
    rw [hX]
    exact List.getElem?_set_eq_of_lt _ hL
  · intro k hk
    show (ed.replaceRange char ⟨L, C⟩).lines[k]? = _
    rw [hX]
    exact List.getElem?_set_ne (Ne.symm hk)
  · show ((ed.replaceRange char ⟨L, C⟩).lines.getD L []).take C = _
    rw [hX, List.getD_eq_getElem?_getD, List.getElem?_set_eq_of_lt _ hL, Option.getD_some,
      List.append_assoc]
    exact List.take_left' hlen1
  · show ((ed.replaceRange char ⟨L, C⟩).lines.getD L []).drop (C + char.length) = _
    rw [hX, List.getD_eq_getElem?_getD, List.getElem?_set_eq_of_lt _ hL, Option.getD_some]
    refine List.drop_left' ?_
    rw [List.length_append, hlen1]

/-- Witness for C2: inserting `ŋ` into a two-line buffer with the cursor at
line 0, offset 1. -/
theorem insert_splices_at_cursor_witness :
    ∃ e' : Editor,
      insertCharacterAtCursor
          { lastActiveEditor := some ⟨[['a', 'b', 'c'], ['d']], ⟨0, 1⟩, false⟩,
            lastActiveView := some ⟨7, ⟨[['a', 'b', 'c'], ['d']], ⟨0, 1⟩, false⟩⟩ }
          ['ŋ']
        = { editor := some e', notices := 0 } ∧
      e'.cursor = ⟨0, 1 + (['ŋ'] : List Char).length⟩ ∧
      e'.lines[0]?
        = some ((([['a', 'b', 'c'], ['d']] : List (List Char)).getD 0 []).take 1 ++ ['ŋ']
            ++ (([['a', 'b', 'c'], ['d']] : List (List Char)).getD 0 []).drop 1) ∧
      (∀ k, k ≠ 0 →
        e'.lines[k]? = ([['a', 'b', 'c'], ['d']] : List (List Char))[k]?) ∧
      (e'.lines.getD 0 []).take 1
        = (([['a', 'b', 'c'], ['d']] : List (List Char)).getD 0 []).take 1 ∧
      (e'.lines.getD 0 []).drop (1 + (['ŋ'] : List Char).length)
        = (([['a', 'b', 'c'], ['d']] : List (List Char)).getD 0 []).drop 1 :=
  insert_splices_at_cursor _ ⟨[['a', 'b', 'c'], ['d']], ⟨0, 1⟩, false⟩
    ⟨7, ⟨[['a', 'b', 'c'], ['d']], ⟨0, 1⟩, false⟩⟩ ['ŋ'] 0 1 rfl rfl rfl
    (by decide) (by decide)

/-- C3: when no focus event has ever resolved to an editor, the tracker is
still in its initial state and `insertCharacterAtCursor` shows exactly one
notice and mutates no editor (the model is a total function, so the call
returns normally rather than throwing). -/
theorem insert_no_target_notice (char : List Char)
    (evs : List (Option MarkdownViewM)) (h : ∀ e ∈ evs, e = none) :
    insertCharacterAtCursor (runFocusEvents initialTracker evs) char
      = { editor := none, notices := 1 } ∧
    runFocusEvents initialTracker evs = initialTracker := by
  have h0 := runFocusEvents_all_none initialTracker evs h
  rw [h0]
  exact ⟨rfl, rfl⟩

/-- Witness for C3: two non-editor focus events, then an insertion. -/
theorem insert_no_target_notice_witness :
    insertCharacterAtCursor (runFocusEvents initialTracker [none, none]) ['ə']
      = { editor := none, notices := 1 } ∧
    runFocusEvents initialTracker [none, none] = initialTracker :=
  insert_no_target_notice ['ə'] [none, none] (by decide)

/-- C4: a focus event that does not resolve to an editor leaves the tracker
unchanged, and after any event sequence the stored target is exactly the
one reported by the most recent editor-resolving event — or the starting
state when there was none. -/
theorem insert_targets_most_recent_editor :
    (∀ t, onActiveLeafChange t none = t) ∧
    (∀ t evs v, lastEditorEvent evs = some v →
      runFocusEvents t evs
        = { lastActiveEditor := some v.editor, lastActiveView := some v }) ∧
    (∀ t evs, lastEditorEvent evs = none → runFocusEvents t evs = t) := by
  refine ⟨fun t => rfl, ?_, ?_⟩
  · intro t evs v hle
    rw [runFocusEvents_eq, hle]
  · intro t evs hle
    rw [runFocusEvents_eq, hle]

/-- Witness for C4: an editor event followed by a later editor event and
trailing non-editor events targets the later editor; an all-`none` sequence
leaves the initial state. -/
theorem insert_targets_most_recent_editor_witness :
    runFocusEvents initialTracker
        [some ⟨1, ⟨[], ⟨0, 0⟩, false⟩⟩, none,
         some ⟨2, ⟨[['a']], ⟨0, 1⟩, true⟩⟩, none]
      = { lastActiveEditor :=
            some (MarkdownViewM.editor ⟨2, ⟨[['a']], ⟨0, 1⟩, true⟩⟩),
          lastActiveView := some ⟨2, ⟨[['a']], ⟨0, 1⟩, true⟩⟩ } ∧
    onActiveLeafChange initialTracker none = initialTracker ∧
    runFocusEvents initialTracker [none, none] = initialTracker :=
  ⟨insert_targets_most_recent_editor.2.1 initialTracker _ _ (by decide),
   insert_targets_most_recent_editor.1 initialTracker,
   insert_targets_most_recent_editor.2.2 initialTracker _ (by decide)⟩

/-- C9: the two stored handles are paired — in the initial state both are
absent, every focus-change either sets both together (to a view and its own
editor) or changes nothing, and hence in every state reachable from the
initial one the editor handle is present exactly when the view handle is. -/
theorem tracker_handles_paired :
    (initialTracker.lastActiveEditor.isSome ↔ initialTracker.lastActiveView.isSome) ∧
    (∀ t e, (∃ v, e = some v ∧ onActiveLeafChange t e
        = { lastActiveEditor := some v.editor, lastActiveView := some v }) ∨
      onActiveLeafChange t e = t) ∧
    (∀ evs, (runFocusEvents initialTracker evs).lastActiveEditor.isSome
        ↔ (runFocusEvents initialTracker evs).lastActiveView.isSome) := by
  refine ⟨by simp [initialTracker], ?_, ?_⟩
  · intro t e
    cases e with
    | some v => exact Or.inl ⟨v, rfl, rfl⟩
    | none => exact Or.inr rfl
  · intro evs
    rw [runFocusEvents_eq]
    cases lastEditorEvent evs with
    | some v => simp
    | none => simp [initialTracker]

/-- A category entry either is visible — and renders as a section titled by
its own name — or is invisible (hidden or unknown) and renders nothing. -/
theorem categorySection_cases (s : MyPluginSettings) (c : String) :
    (categoryVisible s c = true ∧ ∃ chars, categorySection s c = some (c, chars)) ∨
    (categoryVisible s c = false ∧ categorySection s c = none) := by
  unfold categorySection categoryVisible
  split_ifs <;> simp_all

/-- The titles of the rendered sections are the visible entries of the
order, in order. -/
theorem onOpenSections_map_fst (s : MyPluginSettings) :
    ∀ (order : List String),
      (order.filterMap (categorySection s)).map Prod.fst
        = order.filter (categoryVisible s)
  | [] => rfl
  | c :: order => by
    rcases categorySection_cases s c with ⟨hv, chars, hs⟩ | ⟨hv, hs⟩ <;>
      simp [List.filterMap_cons, List.filter_cons, hs, hv,
        onOpenSections_map_fst s order]

/-- An entry that is not one of the four known category names never renders
a section. -/
theorem categorySection_unknown (s : MyPluginSettings) (c : String)
    (hc : c ∉ knownCategoryNames) : categorySection s c = none := by
  have h1 : ¬c = "Vowels" := by rintro rfl; exact hc (by decide)
  have h2 : ¬c = "Consonants" := by rintro rfl; exact hc (by decide)
  have h3 : ¬c = "Diacritics" := by rintro rfl; exact hc (by decide)
  have h4 : ¬c = "Suprasegmentals" := by rintro rfl; exact hc (by decide)
  simp [categorySection, h1, h2, h3, h4]

/-- C7: the render plan lists exactly the categories whose visibility flag
is true, in `categoryOrder` sequence; toggling never changes the order;
after toggling a category off its name is absent from the plan; after
toggling a known, ordered category back on its name is in the plan again
(at its order position, by the first conjunct). -/
theorem render_plan_is_visible_in_order :
    (∀ s, (onOpenSections s).map Prod.fst = s.categoryOrder.filter (categoryVisible s)) ∧
    (∀ s c b, (setVisibility s c b).categoryOrder = s.categoryOrder) ∧
    (∀ s c, c ∉ (onOpenSections (setVisibility s c false)).map Prod.fst) ∧
    (∀ s c, c ∈ knownCategoryNames → c ∈ s.categoryOrder →
      c ∈ (onOpenSections (setVisibility s c true)).map Prod.fst) := by
  have hmap : ∀ s : MyPluginSettings,
      (onOpenSections s).map Prod.fst = s.categoryOrder.filter (categoryVisible s) :=
    fun s => onOpenSections_map_fst s s.categoryOrder
  have horder : ∀ (s : MyPluginSettings) (c : String) (b : Bool),
      (setVisibility s c b).categoryOrder = s.categoryOrder := by
    intro s c b; unfold setVisibility; split_ifs <;> rfl
  have hfalse : ∀ (s : MyPluginSettings) (c : String),
      categoryVisible (setVisibility s c false) c = false := by
    intro s c; unfold setVisibility categoryVisible; split_ifs <;> simp_all
  have htrue : ∀ (s : MyPluginSettings) (c : String), c ∈ knownCategoryNames →
      categoryVisible (setVisibility s c true) c = true := by
    intro s c hc
    simp only [knownCategoryNames, List.mem_cons, List.mem_singleton] at hc
    rcases hc with rfl | rfl | rfl | (rfl | h)
    · rfl
    · rfl
    · rfl
    · rfl
    · exact absurd h (List.not_mem_nil _)
  refine ⟨hmap, horder, ?_, ?_⟩
  · intro s c
    rw [hmap, horder]
    intro hmem
    have hflag := (List.mem_filter.mp hmem).2
    rw [hfalse] at hflag
    exact Bool.false_ne_true hflag
  · intro s c hc hmem
    rw [hmap, horder]
    exact List.mem_filter.mpr ⟨hmem, by rw [htrue s c hc]⟩

/-- Witness for C7: from the defaults, toggling `Vowels` on keeps it in the
plan and toggling `Consonants` off removes it. -/
theorem render_plan_is_visible_in_order_witness :
    "Vowels" ∈ (onOpenSections (setVisibility DEFAULT_SETTINGS "Vowels" true)).map
        Prod.fst ∧
    "Consonants" ∉ (onOpenSections
        (setVisibility DEFAULT_SETTINGS "Consonants" false)).map Prod.fst :=
  ⟨render_plan_is_visible_in_order.2.2.2 DEFAULT_SETTINGS "Vowels"
      (by decide) (by decide),
   render_plan_is_visible_in_order.2.2.1 DEFAULT_SETTINGS "Consonants"⟩

/-- C8: setting the same visibility flag to the same value twice yields the
same configuration — and hence the same render plan — as setting it once. -/
theorem setVisibility_idempotent (s : MyPluginSettings) (c : String) (b : Bool) :
    setVisibility (setVisibility s c b) c b = setVisibility s c b ∧
    onOpenSections (setVisibility (setVisibility s c b) c b)
      = onOpenSections (setVisibility s c b) := by
  have h : setVisibility (setVisibility s c b) c b = setVisibility s c b := by
    unfold setVisibility; split_ifs <;> rfl
  exact ⟨h, by rw [h]⟩

/-- C10: an order entry that is not one of the four known names renders no
section at all, every rendered section is titled by a known name, and
concretely an order `["Tones", "Suprasegmentals"]` under default flags
renders only the suprasegmentals section. -/
theorem render_plan_only_known_names :
    (∀ s c, c ∉ knownCategoryNames → categorySection s c = none) ∧
    (∀ (s : MyPluginSettings) (p : String × List String),
      p ∈ onOpenSections s → p.1 ∈ knownCategoryNames) ∧
    onOpenSections { DEFAULT_SETTINGS with categoryOrder := ["Tones", "Suprasegmentals"] }
      = [("Suprasegmentals", suprasegmentals)] := by
  refine ⟨fun s c hc => categorySection_unknown s c hc, ?_, by decide⟩
  intro s p hp
  obtain ⟨c, hcmem, hsec⟩ := List.mem_filterMap.mp hp
  by_cases hk : c ∈ knownCategoryNames
  · rcases categorySection_cases s c with ⟨_, chars, hs⟩ | ⟨_, hs⟩
    · rw [hs] at hsec
      obtain rfl : p = (c, chars) := by simpa using hsec.symm
      exact hk
    · rw [hs] at hsec
      cases hsec
  · rw [categorySection_unknown s c hk] at hsec
    cases hsec

/-- Witness for C10: the unknown name `Tones` renders nothing, and the one
section rendered from `["Tones", "Suprasegmentals"]` is titled by a known
name. -/
theorem render_plan_only_known_names_witness :
    categorySection DEFAULT_SETTINGS "Tones" = none ∧
    (("Suprasegmentals", suprasegmentals) : String × List String).1
      ∈ knownCategoryNames :=
  ⟨render_plan_only_known_names.1 DEFAULT_SETTINGS "Tones" (by decide),
   render_plan_only_known_names.2.1
     { DEFAULT_SETTINGS with categoryOrder := ["Tones", "Suprasegmentals"] }
     ("Suprasegmentals", suprasegmentals) (by decide)⟩

end IPAPalette
